import Mathlib

/-!
Shallow embedding of the derivation and aggregation core of the
wedding-ledger application (ExpenseForm.tsx, Dashboard.tsx and the two
Analytics components), with theorems checking the specified properties.
Monetary values are modelled as rationals (exact currency arithmetic);
JS objects used as accumulators are modelled as association lists in
key-insertion order; the stable JS array sort is modelled by a stable
insertion sort.
-/

namespace WeddingLedger

/-- Payment status enumeration, mirroring the paid_status enum
(values paid, half_paid, unpaid). -/
inductive PaidStatus where
  | paid
  | half_paid
  | unpaid
deriving DecidableEq, Repr

/-- Denormalized expense row as the aggregation code consumes it: monetary
fields, status, joined reference display names (None models a missing or
null joined name), calendar year and month of the date field, and dateKey
modelling the timestamp new Date(e.date).getTime() used by sort
comparators. -/
structure Expense where
  item_name : String
  quantity : ℚ
  unit_price : ℚ
  total_amount : ℚ
  paid_amount : ℚ
  balance : ℚ
  paid_status : PaidStatus
  categoryName : Option String
  eventName : Option String
  paymentModeName : Option String
  dateYear : ℤ
  dateMonth : ℤ
  dateKey : ℤ
deriving DecidableEq, Repr

/-- JS numeric default idiom x or-else d: a falsy number (0) is replaced by
the default, as in ExpenseForm.tsx lines 77-79. -/
def jsOr (x d : ℚ) : ℚ := if x = 0 then d else x

/-- JS Math.round: round half toward positive infinity. -/
def jsRound (x : ℚ) : ℤ := ⌊x + 1 / 2⌋

/-- ExpenseForm.tsx onSubmit line 180: totalAmount = quantity * unit_price. -/
def onSubmitTotal (quantity unit_price : ℚ) : ℚ := quantity * unit_price

/-- ExpenseForm.tsx onSubmit line 181: balance = totalAmount - paid_amount. -/
def onSubmitBalance (quantity unit_price paid_amount : ℚ) : ℚ :=
  onSubmitTotal quantity unit_price - paid_amount

/-- ExpenseForm.tsx onSubmit lines 183-188: the status persisted on create
and update. Note the first branch tests only paid_amount >= totalAmount,
with no totalAmount > 0 guard. -/
def paidStatusSubmit (totalAmount paid_amount : ℚ) : PaidStatus :=
  if paid_amount ≥ totalAmount then .paid
  else if paid_amount > 0 then .half_paid
  else .unpaid

/-- ExpenseForm.tsx getPaidStatus lines 263-267: the status shown by the
live form display, with the display strings Paid, Half Paid and Unpaid
mapped onto the enumeration. This branch does guard totalAmount > 0. -/
def getPaidStatus (totalAmount paidAmount : ℚ) : PaidStatus :=
  if paidAmount ≥ totalAmount ∧ totalAmount > 0 then .paid
  else if paidAmount > 0 then .half_paid
  else .unpaid

/-- ExpenseForm.tsx line 77: quantity = watch(quantity) or-else 1. -/
def formQuantity (w : ℚ) : ℚ := jsOr w 1

/-- ExpenseForm.tsx line 78: unitPrice = watch(unit_price) or-else 0. -/
def formUnitPrice (w : ℚ) : ℚ := jsOr w 0

/-- ExpenseForm.tsx line 79: paidAmount = watch(paid_amount) or-else 0. -/
def formPaidAmount (w : ℚ) : ℚ := jsOr w 0

/-- ExpenseForm.tsx line 80: live displayed total. -/
def formTotalAmount (q p : ℚ) : ℚ := formQuantity q * formUnitPrice p

/-- ExpenseForm.tsx line 81: live displayed balance. -/
def formBalance (q p a : ℚ) : ℚ := formTotalAmount q p - formPaidAmount a

/-- The triple of derived fields written to the store by onSubmit. -/
structure DerivedFields where
  total_amount : ℚ
  balance : ℚ
  paid_status : PaidStatus
deriving DecidableEq, Repr

/-- ExpenseForm.tsx lines 180-188: the derivation computed once in onSubmit,
before the create/update branch. -/
def deriveOnSubmit (quantity unit_price paid_amount : ℚ) : DerivedFields :=
  { total_amount := onSubmitTotal quantity unit_price
    balance := onSubmitBalance quantity unit_price paid_amount
    paid_status := paidStatusSubmit (onSubmitTotal quantity unit_price) paid_amount }

/-- Derived fields of the insert payload of the create branch
(ExpenseForm.tsx lines 220-235). -/
def createPayloadDerived (quantity unit_price paid_amount : ℚ) : DerivedFields :=
  deriveOnSubmit quantity unit_price paid_amount

/-- Derived fields of the update payload of the edit branch
(ExpenseForm.tsx lines 192-210); the prior stored record is available to
this branch (it supplies the row id) but the derived fields come from the
current inputs alone. -/
def updatePayloadDerived (prior : Expense) (quantity unit_price paid_amount : ℚ) :
    DerivedFields :=
  deriveOnSubmit quantity unit_price paid_amount

/-- ExpenseForm.tsx line 71: when editing, the form seeds unit_price as
total_amount / quantity rather than loading a stored unit price. -/
def editDefaultUnitPrice (total_amount quantity : ℚ) : ℚ := total_amount / quantity

/-- A reduce of the shape reduce((sum, e) => sum + f(e), 0) over the
expense collection. -/
def sumBy (f : Expense → ℚ) (l : List Expense) : ℚ :=
  l.foldl (fun s e => s + f e) 0

/-- JS display-name fallback idiom name or-else sentinel: a missing (null)
or empty reference name falls back to the sentinel label. -/
def fallbackName (n : Option String) (sentinel : String) : String :=
  match n with
  | none => sentinel
  | some s => if s = "" then sentinel else s

/-- JS object accumulator step acc[k] = (acc[k] or-else 0) + v on an
association list in key-insertion order: the existing entry for k is
updated, otherwise (k, v) is appended. -/
def addToGroups {κ : Type} [DecidableEq κ] : List (κ × ℚ) → κ → ℚ → List (κ × ℚ)
  | [], k, v => [(k, v)]
  | p :: rest, k, v =>
      if p.1 = k then (p.1, p.2 + v) :: rest else p :: addToGroups rest k v

/-- A reduce of the shape reduce((acc, e) => acc[key e] += val e, {}),
producing the group totals in key-insertion order. -/
def groupSumsBy {κ : Type} [DecidableEq κ] (key : Expense → κ) (val : Expense → ℚ)
    (l : List Expense) : List (κ × ℚ) :=
  l.foldl (fun acc e => addToGroups acc (key e) (val e)) []

/-- Sum of the per-group totals of a breakdown. -/
def sumVals {κ : Type} (gs : List (κ × ℚ)) : ℚ := (gs.map Prod.snd).sum

/-- Keys of a breakdown, in insertion order. -/
def keysOf {κ : Type} (gs : List (κ × ℚ)) : List κ := gs.map Prod.fst

/-- Insert x into a list sorted in descending key order, after every element
with a strictly greater key and before the first element whose key is less
than or equal: the placement a stable descending sort gives an element that
came after the list elements in the input. -/
def insertByDesc {α β : Type} [LinearOrder β] (key : α → β) (x : α) :
    List α → List α
  | [] => [x]
  | y :: ys => if key x < key y then y :: insertByDesc key x ys else x :: y :: ys

/-- Stable descending sort by a numeric key, modelling the JS stable
Array.prototype.sort with comparator (a, b) => key b - key a. -/
def sortByDesc {α β : Type} [LinearOrder β] (key : α → β) : List α → List α
  | [] => []
  | x :: xs => insertByDesc key x (sortByDesc key xs)

/-- Dashboard.tsx aggregate state (loadDashboardData lines 80-107). -/
structure DashboardStats where
  totalExpenses : ℚ
  totalPaid : ℚ
  totalBalance : ℚ
  expenseCount : ℕ
  upcomingPayments : ℕ
  completedPayments : ℕ
  categoryBreakdown : List (String × ℚ)
  recentActivity : List Expense
deriving DecidableEq, Repr

/-- Dashboard.tsx loadDashboardData lines 80-107: scalar rollups, the two
status counters, the category breakdown keyed by the joined category name
with sentinel Other, and the first five records as recent activity. -/
def loadDashboardStats (expenses : List Expense) : DashboardStats :=
  { totalExpenses := sumBy (fun e => e.total_amount) expenses
    totalPaid := sumBy (fun e => e.paid_amount) expenses
    totalBalance := sumBy (fun e => e.balance) expenses
    expenseCount := expenses.length
    upcomingPayments := (expenses.filter (fun e => decide (e.paid_status = .unpaid))).length
    completedPayments := (expenses.filter (fun e => decide (e.paid_status = .paid))).length
    categoryBreakdown :=
      groupSumsBy (fun e => fallbackName e.categoryName ("Other"))
        (fun e => e.total_amount) expenses
    recentActivity := expenses.take 5 }

/-- Dashboard.tsx getPercentagePaid lines 123-126: guarded percent paid,
rounded to the nearest whole percent. -/
def getPercentagePaid (stats : DashboardStats) : ℤ :=
  if stats.totalExpenses = 0 then 0
  else jsRound (stats.totalPaid / stats.totalExpenses * 100)

/-- Dashboard.tsx lines 331-333: category entries sorted descending by
amount, truncated to the top six. -/
def topCategories (breakdown : List (String × ℚ)) : List (String × ℚ) :=
  (sortByDesc Prod.snd breakdown).take 6

/-- Analytics (button.tsx lines 855-859): expenses sorted descending by
total_amount, truncated to the top five. The sort is the in-place JS sort;
the reordered list is also the post-call content of the input array. -/
def largestExpenses (expenses : List Expense) : List Expense :=
  (sortByDesc (fun e => e.total_amount) expenses).take 5

/-- JS calendar month normalization of new Date(y, m, 1): month indices
outside 0..11 carry into the year. Integer division and remainder on this
type are Euclidean, giving the floor division and non-negative remainder
JS uses here. -/
def normalizeMonth (y m : ℤ) : ℤ × ℤ := (y + m / 12, m % 12)

/-- Absolute month index of a (year, month) pair. -/
def monthIdx (ym : ℤ × ℤ) : ℤ := ym.1 * 12 + ym.2

/-- Analytics (button.tsx lines 189-195): the records of one calendar
month bucket and their paid_amount sum. -/
def paidSumInMonth (expenses : List Expense) (ym : ℤ × ℤ) : ℚ :=
  sumBy (fun e => e.paid_amount)
    (expenses.filter (fun e => decide (e.dateYear = ym.1 ∧ e.dateMonth = ym.2)))

/-- Analytics generateMonthlyTrend (button.tsx lines 181-199): the loop
for i = 5 down to 0 emits the month now minus i with the paid_amount sum of
the records dated in that month; the window is generated from the current
date independently of the data. The loop counter i equals 5 - j for the
j-th emitted entry. -/
def generateMonthlyTrend (nowY nowM : ℤ) (expenses : List Expense) :
    List ((ℤ × ℤ) × ℚ) :=
  (List.range 6).map (fun (j : ℕ) =>
    let ym := normalizeMonth nowY (nowM - (5 - (j : ℤ)))
    (ym, paidSumInMonth expenses ym))

/-- Analytics view data (button.tsx processExpenseData lines 139-179). -/
structure AnalyticsData where
  totalBudget : ℚ
  totalSpent : ℚ
  totalBalance : ℚ
  expensesByCategory : List (String × ℚ)
  expensesByEvent : List (String × ℚ)
  expensesByStatus : List (PaidStatus × ℚ)
  recentExpenses : List Expense
  monthlyTrend : List ((ℤ × ℤ) × ℚ)
deriving DecidableEq, Repr

/-- Analytics processExpenseData (button.tsx lines 139-179). The rollups
and the three breakdowns read the array in its input order; line 162 then
sorts the array in place, descending by date, before slicing the first five
as recent expenses, and line 167 generates the monthly trend from the
already-sorted array. The second component of the result is the content of
the caller-owned array after the call, reflecting the in-place sort. -/
def processExpenseData (nowY nowM : ℤ) (expenses : List Expense) :
    AnalyticsData × List Expense :=
  let sorted := sortByDesc (fun e => e.dateKey) expenses
  (⟨sumBy (fun e => e.total_amount) expenses,
    sumBy (fun e => e.paid_amount) expenses,
    sumBy (fun e => e.balance) expenses,
    groupSumsBy (fun e => fallbackName e.categoryName ("Uncategorized"))
      (fun e => e.total_amount) expenses,
    groupSumsBy (fun e => fallbackName e.eventName ("No Event"))
      (fun e => e.total_amount) expenses,
    groupSumsBy (fun e => e.paid_status) (fun e => e.total_amount) expenses,
    sorted.take 5,
    generateMonthlyTrend nowY nowM sorted⟩,
   sorted)

/-- Division as JS performs it at button.tsx line 237, where no zero guard
exists: none models the non-finite float (NaN for 0 / 0, signed infinity
otherwise) that a zero denominator produces. -/
def jsDivOption (a b : ℚ) : Option ℚ :=
  if b = 0 then none else some (a / b)

/-- Analytics (button.tsx line 237): budgetUtilization =
(totalSpent / totalBudget) * 100, with no guard on totalBudget. -/
def budgetUtilization (a : AnalyticsData) : Option ℚ :=
  (jsDivOption a.totalSpent a.totalBudget).map (fun x => x * 100)

/-- Second Analytics component (button.tsx line 442): paymentPercent is
guarded, yielding 0 when the total is not positive. -/
def paymentPercent (expenses : List Expense) : ℚ :=
  if sumBy (fun e => e.total_amount) expenses > 0 then
    sumBy (fun e => e.paid_amount) expenses /
      sumBy (fun e => e.total_amount) expenses * 100
  else 0

/-! Helper lemmas about the embedded reductions. -/

theorem foldl_add_shift (f : Expense → ℚ) (l : List Expense) (a : ℚ) :
    l.foldl (fun s e => s + f e) a = a + l.foldl (fun s e => s + f e) 0 := by
  induction l generalizing a with
  | nil => simp
  | cons e l ih =>
    simp only [List.foldl_cons]
    rw [ih (a + f e), ih (0 + f e)]
    ring

theorem sumBy_nil (f : Expense → ℚ) : sumBy f [] = 0 := rfl

theorem sumBy_cons (f : Expense → ℚ) (e : Expense) (l : List Expense) :
    sumBy f (e :: l) = f e + sumBy f l := by
  simp only [sumBy, List.foldl_cons]
  rw [foldl_add_shift]
  ring

theorem sumVals_addToGroups {κ : Type} [DecidableEq κ] (acc : List (κ × ℚ))
    (k : κ) (v : ℚ) : sumVals (addToGroups acc k v) = sumVals acc + v := by
  induction acc with
  | nil => simp [addToGroups, sumVals]
  | cons p rest ih =>
    by_cases h : p.1 = k
    · simp only [addToGroups, if_pos h, sumVals, List.map_cons, List.sum_cons]
      ring
    · simp only [addToGroups, if_neg h, sumVals, List.map_cons, List.sum_cons] at ih ⊢
      rw [ih]
      ring

theorem sumVals_foldl_groups {κ : Type} [DecidableEq κ] (key : Expense → κ)
    (val : Expense → ℚ) (l : List Expense) :
    ∀ acc, sumVals (l.foldl (fun acc e => addToGroups acc (key e) (val e)) acc)
      = sumVals acc + sumBy val l := by
  induction l with
  | nil => intro acc; simp [sumBy]
  | cons e l ih =>
    intro acc
    simp only [List.foldl_cons]
    rw [ih, sumVals_addToGroups, sumBy_cons]
    ring

theorem sumVals_groupSumsBy {κ : Type} [DecidableEq κ] (key : Expense → κ)
    (val : Expense → ℚ) (l : List Expense) :
    sumVals (groupSumsBy key val l) = sumBy val l := by
  have h := sumVals_foldl_groups key val l []
  simpa [groupSumsBy, sumVals] using h

theorem addToGroups_cons_eq {κ : Type} [DecidableEq κ] (p : κ × ℚ)
    (rest : List (κ × ℚ)) (v : ℚ) :
    addToGroups (p :: rest) p.1 v = (p.1, p.2 + v) :: rest := by
  simp [addToGroups]

theorem addToGroups_cons_ne {κ : Type} [DecidableEq κ] {p : κ × ℚ} {k : κ}
    (h : ¬ p.1 = k) (rest : List (κ × ℚ)) (v : ℚ) :
    addToGroups (p :: rest) k v = p :: addToGroups rest k v := by
  simp [addToGroups, h]

theorem mem_keysOf_addToGroups {κ : Type} [DecidableEq κ] {acc : List (κ × ℚ)}
    {k k' : κ} {v : ℚ} :
    k' ∈ keysOf (addToGroups acc k v) ↔ k' = k ∨ k' ∈ keysOf acc := by
  induction acc with
  | nil => simp [addToGroups, keysOf]
  | cons p rest ih =>
    by_cases h : p.1 = k
    · subst h
      rw [addToGroups_cons_eq]
      simp only [keysOf, List.map_cons, List.mem_cons]
      tauto
    · rw [addToGroups_cons_ne h]
      simp only [keysOf, List.map_cons, List.mem_cons] at ih ⊢
      rw [ih]
      tauto

theorem mem_keysOf_foldl_groups {κ : Type} [DecidableEq κ] (key : Expense → κ)
    (val : Expense → ℚ) (l : List Expense) :
    ∀ acc k', k' ∈ keysOf acc →
      k' ∈ keysOf (l.foldl (fun acc e => addToGroups acc (key e) (val e)) acc) := by
  induction l with
  | nil => intro acc k' h; simpa using h
  | cons e l ih =>
    intro acc k' h
    simp only [List.foldl_cons]
    exact ih _ _ (mem_keysOf_addToGroups.mpr (Or.inr h))

theorem key_mem_groupSumsBy {κ : Type} [DecidableEq κ] (key : Expense → κ)
    (val : Expense → ℚ) (l : List Expense) :
    ∀ e ∈ l, key e ∈ keysOf (groupSumsBy key val l) := by
  suffices h : ∀ acc, ∀ e ∈ l,
      key e ∈ keysOf (l.foldl (fun acc e => addToGroups acc (key e) (val e)) acc) by
    exact h []
  induction l with
  | nil => intro acc e he; simp at he
  | cons e0 l ih =>
    intro acc e he
    simp only [List.foldl_cons]
    rcases List.mem_cons.mp he with rfl | hmem
    · exact mem_keysOf_foldl_groups key val l _ _
        (mem_keysOf_addToGroups.mpr (Or.inl rfl))
    · exact ih _ e hmem

theorem insertByDesc_perm {α β : Type} [LinearOrder β] (key : α → β) (x : α)
    (l : List α) : List.Perm (insertByDesc key x l) (x :: l) := by
  induction l with
  | nil => exact List.Perm.refl _
  | cons y ys ih =>
    by_cases h : key x < key y
    · simp only [insertByDesc, if_pos h]
      exact (ih.cons y).trans (List.Perm.swap x y ys)
    · simp only [insertByDesc, if_neg h]
      exact List.Perm.refl _

theorem sortByDesc_perm {α β : Type} [LinearOrder β] (key : α → β) (l : List α) :
    List.Perm (sortByDesc key l) l := by
  induction l with
  | nil => exact List.Perm.refl _
  | cons x xs ih => exact (insertByDesc_perm key x _).trans (ih.cons x)

theorem pairwise_insertByDesc {α β : Type} [LinearOrder β] (key : α → β) (x : α)
    {l : List α} (h : l.Pairwise (fun a b => key b ≤ key a)) :
    (insertByDesc key x l).Pairwise (fun a b => key b ≤ key a) := by
  induction l with
  | nil => simp [insertByDesc]
  | cons y ys ih =>
    rcases List.pairwise_cons.mp h with ⟨hy, hys⟩
    by_cases hxy : key x < key y
    · simp only [insertByDesc, if_pos hxy]
      refine List.pairwise_cons.mpr ⟨?_, ih hys⟩
      intro b hb
      rcases List.mem_cons.mp ((insertByDesc_perm key x ys).mem_iff.mp hb) with
        rfl | hbys
      · exact le_of_lt hxy
      · exact hy b hbys
    · simp only [insertByDesc, if_neg hxy]
      refine List.pairwise_cons.mpr ⟨?_, h⟩
      intro b hb
      rcases List.mem_cons.mp hb with rfl | hbys
      · exact le_of_not_lt hxy
      · exact le_trans (hy b hbys) (le_of_not_lt hxy)

theorem pairwise_sortByDesc {α β : Type} [LinearOrder β] (key : α → β)
    (l : List α) : (sortByDesc key l).Pairwise (fun a b => key b ≤ key a) := by
  induction l with
  | nil => simp [sortByDesc]
  | cons x xs ih => exact pairwise_insertByDesc key x ih

theorem filter_insertByDesc {α β : Type} [LinearOrder β] (key : α → β) (x : α)
    (l : List α) (k : β) :
    (insertByDesc key x l).filter (fun a => decide (key a = k)) =
      if key x = k then x :: l.filter (fun a => decide (key a = k))
      else l.filter (fun a => decide (key a = k)) := by
  induction l with
  | nil =>
    simp only [insertByDesc, List.filter]
    split <;> simp_all
  | cons y ys ih =>
    by_cases hxy : key x < key y
    · simp only [insertByDesc, if_pos hxy]
      by_cases hx : key x = k
      · have hyk : ¬ key y = k := fun hyk => absurd hxy (by rw [hx, hyk]; exact lt_irrefl k)
        simp [List.filter_cons, hx, hyk, ih]
      · by_cases hyk : key y = k
        · simp [List.filter_cons, hx, hyk, ih]
        · simp [List.filter_cons, hx, hyk, ih]
    · simp only [insertByDesc, if_neg hxy]
      by_cases hx : key x = k
      · simp [List.filter_cons, hx]
      · simp [List.filter_cons, hx]

theorem filter_sortByDesc {α β : Type} [LinearOrder β] (key : α → β)
    (l : List α) (k : β) :
    (sortByDesc key l).filter (fun a => decide (key a = k)) =
      l.filter (fun a => decide (key a = k)) := by
  induction l with
  | nil => rfl
  | cons x xs ih =>
    simp only [sortByDesc]
    rw [filter_insertByDesc]
    by_cases hx : key x = k
    · simp [List.filter_cons, hx, ih]
    · simp [List.filter_cons, hx, ih]

theorem monthIdx_normalizeMonth (y m : ℤ) :
    monthIdx (normalizeMonth y m) = y * 12 + m := by
  simp only [monthIdx, normalizeMonth]
  omega

theorem jsOr_zero_default (x : ℚ) : jsOr x 0 = x := by
  unfold jsOr
  split_ifs with h
  · exact h.symm
  · rfl

theorem jsOr_of_ne {x : ℚ} (h : x ≠ 0) (d : ℚ) : jsOr x d = x := by
  simp [jsOr, h]

/-! Claim theorems. -/

/-- C1: at quantity 1, unit_price 0, paid_amount 0 (so total_amount = 0 and
paid_amount = 0) the status persisted by the submit path is paid, while the
live form display shows unpaid, which is what the claim states; at total
100 and paid 150 both paths give paid. The submit path therefore violates
the claimed classification exactly at the documented (0, 0) boundary,
because its first branch omits the totalAmount > 0 guard that the display
path has. -/
theorem submit_display_status_divergence :
    paidStatusSubmit (onSubmitTotal 1 0) 0 = PaidStatus.paid
    ∧ getPaidStatus (formTotalAmount 1 0) (formPaidAmount 0) = PaidStatus.unpaid
    ∧ paidStatusSubmit (onSubmitTotal 1 100) 150 = PaidStatus.paid
    ∧ getPaidStatus (onSubmitTotal 1 100) 150 = PaidStatus.paid := by
  refine ⟨?_, ?_, ?_, ?_⟩ <;>
    norm_num [paidStatusSubmit, getPaidStatus, onSubmitTotal, formTotalAmount,
      formQuantity, formUnitPrice, formPaidAmount, jsOr]

/-- C2: for quantity at least 1 and non-negative unit_price and
paid_amount, both the submit path and the live form display derive
total_amount = quantity * unit_price exactly and balance =
total_amount - paid_amount, in exact rational arithmetic. -/
theorem derived_total_and_balance (q p a : ℚ) (hq : 1 ≤ q) (hp : 0 ≤ p)
    (ha : 0 ≤ a) :
    onSubmitTotal q p = q * p
    ∧ onSubmitBalance q p a = q * p - a
    ∧ formTotalAmount q p = q * p
    ∧ formBalance q p a = q * p - a := by
  have hq0 : q ≠ 0 := ne_of_gt (lt_of_lt_of_le one_pos hq)
  have ht : formTotalAmount q p = q * p := by
    unfold formTotalAmount formQuantity formUnitPrice
    rw [jsOr_of_ne hq0, jsOr_zero_default]
  refine ⟨rfl, rfl, ht, ?_⟩
  unfold formBalance formPaidAmount
  rw [ht, jsOr_zero_default]

/-- Witness for C2 at scenario A values quantity 2, unit_price 500,
paid_amount 1000. -/
theorem derived_total_and_balance_witness :
    (1 : ℚ) ≤ 2 ∧ (0 : ℚ) ≤ 500 ∧ (0 : ℚ) ≤ 1000 ∧
      (onSubmitTotal 2 500 = 2 * 500
        ∧ onSubmitBalance 2 500 1000 = 2 * 500 - 1000
        ∧ formTotalAmount 2 500 = 2 * 500
        ∧ formBalance 2 500 1000 = 2 * 500 - 1000) :=
  ⟨by norm_num, by norm_num, by norm_num,
    derived_total_and_balance 2 500 1000 (by norm_num) (by norm_num) (by norm_num)⟩

/-- C3: on the empty collection the Analytics budget-utilization figure at
button.tsx line 237 divides totalSpent by totalBudget with no zero guard
and produces a non-finite float (rendered as NaN percent), violating the
claim; the guarded dashboard getPercentagePaid returns 0 there, and on the
scenario A totals it returns round(1000 / 1300 * 100) = 77 as the claim
specifies; the second Analytics paymentPercent is also guarded. -/
theorem percent_paid_guard_divergence :
    budgetUtilization (processExpenseData 2026 9 []).1 = none
    ∧ getPercentagePaid (loadDashboardStats []) = 0
    ∧ getPercentagePaid ⟨1300, 1000, 300, 2, 1, 1, [], []⟩ = 77
    ∧ paymentPercent [] = 0 := by
  refine ⟨?_, ?_, ?_, ?_⟩
  · simp [budgetUtilization, processExpenseData, jsDivOption, sumBy]
  · simp [getPercentagePaid, loadDashboardStats, sumBy]
  · have h : getPercentagePaid ⟨1300, 1000, 300, 2, 1, 1, [], []⟩
        = jsRound (1000 / 1300 * 100) := by
      norm_num [getPercentagePaid]
    rw [h]
    unfold jsRound
    rw [show (1000 / 1300 * 100 + 1 / 2 : ℚ) = 2013 / 26 by norm_num]
    rw [Int.floor_eq_iff]
    constructor <;> norm_num
  · simp [paymentPercent, sumBy]

/-- C9: the derived triple written by the update branch equals the one
written by the create branch for the same final inputs, for every prior
stored record: onSubmit computes the derivation once from the three
current inputs, before the create/update branch, and never reads prior
state. -/
theorem update_create_same_derivation (prior : Expense) (q p a : ℚ) :
    updatePayloadDerived prior q p a = createPayloadDerived q p a := rfl

/-- C10: the edit form reconstructs unit_price as total_amount / quantity;
re-deriving the total from the reconstructed unit price restores
total_amount exactly in exact rational arithmetic, for every stored
expense with quantity at least 1. -/
theorem edit_unit_price_roundtrip (total q : ℚ) (hq : 1 ≤ q) :
    onSubmitTotal q (editDefaultUnitPrice total q) = total := by
  have hq0 : q ≠ 0 := ne_of_gt (lt_of_lt_of_le one_pos hq)
  unfold onSubmitTotal editDefaultUnitPrice
  rw [mul_comm]
  exact div_mul_cancel₀ total hq0

/-- Witness for C10 at total_amount 300, quantity 2. -/
theorem edit_unit_price_roundtrip_witness :
    (1 : ℚ) ≤ 2 ∧ onSubmitTotal 2 (editDefaultUnitPrice 300 2) = 300 :=
  ⟨by norm_num, edit_unit_price_roundtrip 300 2 (by norm_num)⟩

/-- C4: for every collection, the per-group totals of the dashboard
category breakdown and of the three Analytics breakdowns (category, event,
status) sum to the corresponding scalar rollup, and every record is
assigned a group: its sentinel-defaulted key appears among the group keys,
so no record is ever dropped from a grouping. -/
theorem breakdown_sums_match_rollup (nowY nowM : ℤ) (l : List Expense) :
    sumVals (loadDashboardStats l).categoryBreakdown
      = (loadDashboardStats l).totalExpenses
    ∧ sumVals (processExpenseData nowY nowM l).1.expensesByCategory
        = (processExpenseData nowY nowM l).1.totalBudget
    ∧ sumVals (processExpenseData nowY nowM l).1.expensesByEvent
        = (processExpenseData nowY nowM l).1.totalBudget
    ∧ sumVals (processExpenseData nowY nowM l).1.expensesByStatus
        = (processExpenseData nowY nowM l).1.totalBudget
    ∧ (∀ e ∈ l, fallbackName e.categoryName ("Other")
        ∈ keysOf (loadDashboardStats l).categoryBreakdown)
    ∧ (∀ e ∈ l, fallbackName e.categoryName ("Uncategorized")
        ∈ keysOf (processExpenseData nowY nowM l).1.expensesByCategory)
    ∧ (∀ e ∈ l, fallbackName e.eventName ("No Event")
        ∈ keysOf (processExpenseData nowY nowM l).1.expensesByEvent)
    ∧ (∀ e ∈ l, e.paid_status
        ∈ keysOf (processExpenseData nowY nowM l).1.expensesByStatus) := by
  refine ⟨?_, ?_, ?_, ?_, ?_, ?_, ?_, ?_⟩ <;>
    simp only [loadDashboardStats, processExpenseData]
  · exact sumVals_groupSumsBy _ _ l
  · exact sumVals_groupSumsBy _ _ l
  · exact sumVals_groupSumsBy _ _ l
  · exact sumVals_groupSumsBy _ _ l
  · exact key_mem_groupSumsBy _ _ l
  · exact key_mem_groupSumsBy _ _ l
  · exact key_mem_groupSumsBy _ _ l
  · exact key_mem_groupSumsBy _ _ l

/-- Witness for C4 on a one-record collection: the record with category
name Decor lands in the Decor group of the dashboard breakdown. -/
theorem breakdown_sums_match_rollup_witness :
    fallbackName (some ("Decor")) ("Other") ∈ keysOf (loadDashboardStats
      [⟨"flowers", 1, 100, 100, 50, 50, PaidStatus.half_paid, some ("Decor"),
        some ("Ceremony"), some ("Cash"), 2026, 9, 100⟩]).categoryBreakdown :=
  (breakdown_sums_match_rollup 2026 9
      [⟨"flowers", 1, 100, 100, 50, 50, PaidStatus.half_paid, some ("Decor"),
        some ("Ceremony"), some ("Cash"), 2026, 9, 100⟩]).2.2.2.2.1
    ⟨"flowers", 1, 100, 100, 50, 50, PaidStatus.half_paid, some ("Decor"),
      some ("Ceremony"), some ("Cash"), 2026, 9, 100⟩ (by simp)

/-- C8: on the empty collection the dashboard aggregation yields all-zero
scalar rollups, zero status counters, an empty category breakdown and
empty recent activity, and the Analytics aggregation yields zero totals,
empty group mappings and an empty recent-expense list; all the aggregation
functions are total Lean functions, defined on every collection, so no
error can be raised. -/
theorem empty_collection_aggregates (nowY nowM : ℤ) :
    loadDashboardStats [] = ⟨0, 0, 0, 0, 0, 0, [], []⟩
    ∧ (processExpenseData nowY nowM []).1.totalBudget = 0
    ∧ (processExpenseData nowY nowM []).1.totalSpent = 0
    ∧ (processExpenseData nowY nowM []).1.totalBalance = 0
    ∧ (processExpenseData nowY nowM []).1.expensesByCategory = []
    ∧ (processExpenseData nowY nowM []).1.expensesByEvent = []
    ∧ (processExpenseData nowY nowM []).1.expensesByStatus = []
    ∧ (processExpenseData nowY nowM []).1.recentExpenses = [] :=
  ⟨rfl, rfl, rfl, rfl, rfl, rfl, rfl, rfl⟩

/-- C5 counterexample: processExpenseData sorts the caller-owned array in
place (button.tsx line 162); on a two-record collection whose dates are in
ascending order, the post-call array content differs from the input
collection, so the collection is not unchanged. -/
theorem aggregation_mutates_input_order :
    (processExpenseData 2026 9
      [⟨"a", 0, 0, 0, 0, 0, PaidStatus.unpaid, none, none, none, 2026, 9, 1⟩,
       ⟨"b", 0, 0, 0, 0, 0, PaidStatus.unpaid, none, none, none, 2026, 9, 2⟩]).2
    ≠ [⟨"a", 0, 0, 0, 0, 0, PaidStatus.unpaid, none, none, none, 2026, 9, 1⟩,
       ⟨"b", 0, 0, 0, 0, 0, PaidStatus.unpaid, none, none, none, 2026, 9, 2⟩] := by
  have h : (processExpenseData 2026 9
      [⟨"a", 0, 0, 0, 0, 0, PaidStatus.unpaid, none, none, none, 2026, 9, 1⟩,
       ⟨"b", 0, 0, 0, 0, 0, PaidStatus.unpaid, none, none, none, 2026, 9, 2⟩]).2
      = [⟨"b", 0, 0, 0, 0, 0, PaidStatus.unpaid, none, none, none, 2026, 9, 2⟩,
         ⟨"a", 0, 0, 0, 0, 0, PaidStatus.unpaid, none, none, none, 2026, 9, 1⟩] := by
    norm_num [processExpenseData, sortByDesc, insertByDesc]
  rw [h]
  simp [Expense.mk.injEq]

/-- C5 (amended): every aggregation leaves the length and the multiset of
elements of the input collection unchanged — the post-call array is a
permutation of the input — but the in-place sorts used by the
recent-expenses ranking (button.tsx line 162) and the largest-expenses
ranking (button.tsx line 857) may change the element order. -/
theorem aggregation_preserves_multiset (nowY nowM : ℤ) (l : List Expense) :
    List.Perm (processExpenseData nowY nowM l).2 l
    ∧ (processExpenseData nowY nowM l).2.length = l.length
    ∧ List.Perm (sortByDesc (fun e : Expense => e.total_amount) l) l
    ∧ (sortByDesc (fun e : Expense => e.total_amount) l).length = l.length := by
  have h1 : (processExpenseData nowY nowM l).2
      = sortByDesc (fun e : Expense => e.dateKey) l := rfl
  refine ⟨?_, ?_, sortByDesc_perm _ l, (sortByDesc_perm _ l).length_eq⟩
  · rw [h1]
    exact sortByDesc_perm _ l
  · rw [h1]
    exact (sortByDesc_perm _ l).length_eq

/-- C6: the monthly trend always holds exactly six entries; the month
labels do not depend on the data (the window over any collection equals
the window over the empty collection); the labels are the six consecutive
calendar months ending at the current month, in chronological order; each
entry carries the paid_amount sum of the records dated in its month; and
on the empty collection every amount is 0. -/
theorem monthly_trend_window (nowY nowM : ℤ) (l : List Expense) :
    (generateMonthlyTrend nowY nowM l).length = 6
    ∧ (generateMonthlyTrend nowY nowM l).map Prod.fst
        = (generateMonthlyTrend nowY nowM []).map Prod.fst
    ∧ (generateMonthlyTrend nowY nowM l).map (fun p => monthIdx p.1)
        = [nowY * 12 + nowM - 5, nowY * 12 + nowM - 4, nowY * 12 + nowM - 3,
           nowY * 12 + nowM - 2, nowY * 12 + nowM - 1, nowY * 12 + nowM]
    ∧ (∀ p ∈ generateMonthlyTrend nowY nowM l, p.2 = paidSumInMonth l p.1)
    ∧ (∀ p ∈ generateMonthlyTrend nowY nowM [], p.2 = 0) := by
  have hr : List.range 6 = [0, 1, 2, 3, 4, 5] := rfl
  refine ⟨?_, ?_, ?_, ?_, ?_⟩
  · unfold generateMonthlyTrend
    rw [List.length_map, List.length_range]
  · simp [generateMonthlyTrend]
  · simp only [generateMonthlyTrend, hr, List.map_cons, List.map_nil,
      List.cons.injEq, and_true]
    norm_num
    refine ⟨?_, ?_, ?_, ?_, ?_, ?_⟩ <;> rw [monthIdx_normalizeMonth] <;> ring
  · intro p hp
    simp only [generateMonthlyTrend, List.mem_map] at hp
    rcases hp with ⟨j, hj, h⟩
    rw [← h]
  · intro p hp
    simp only [generateMonthlyTrend, List.mem_map] at hp
    rcases hp with ⟨j, hj, h⟩
    rw [← h]
    rfl

/-- Witness for C6: in the six-month window ending October 2026 (month
index 9 of year 2026) over the empty collection, the May 2026 bucket
(month index 4) carries amount 0, the paid sum of an empty month. -/
theorem monthly_trend_window_witness :
    (((2026, 4), (0 : ℚ)) : (ℤ × ℤ) × ℚ).2
      = paidSumInMonth [] (((2026, 4), (0 : ℚ)) : (ℤ × ℤ) × ℚ).1 :=
  (monthly_trend_window 2026 9 []).2.2.2.1 ((2026, 4), 0)
    (by
      norm_num [generateMonthlyTrend, normalizeMonth, paidSumInMonth, sumBy]
      refine ⟨0, by norm_num, by decide, by decide⟩)

/-- C7: the dashboard top-category ranking returns at most six entries and
the analytics largest-expense ranking at most five, both sorted in
descending order of amount, even when the bound exceeds the number of
groups; and the underlying sort is stable, in that the elements sharing
any amount value appear in the same relative order as in the input. -/
theorem topn_ranking_sorted_stable (gs : List (String × ℚ)) (l : List Expense) :
    (topCategories gs).length ≤ 6
    ∧ (largestExpenses l).length ≤ 5
    ∧ (topCategories gs).Pairwise (fun a b => b.2 ≤ a.2)
    ∧ (largestExpenses l).Pairwise (fun a b => b.total_amount ≤ a.total_amount)
    ∧ (∀ k : ℚ, (sortByDesc Prod.snd gs).filter (fun p => decide (p.2 = k))
        = gs.filter (fun p => decide (p.2 = k)))
    ∧ (∀ k : ℚ, (sortByDesc (fun e : Expense => e.total_amount) l).filter
          (fun e => decide (e.total_amount = k))
        = l.filter (fun e => decide (e.total_amount = k))) := by
  refine ⟨?_, ?_, ?_, ?_, ?_, ?_⟩
  · exact List.length_take_le 6 (sortByDesc Prod.snd gs)
  · exact List.length_take_le 5 (sortByDesc (fun e : Expense => e.total_amount) l)
  · exact (pairwise_sortByDesc Prod.snd gs).sublist (List.take_sublist 6 _)
  · exact (pairwise_sortByDesc (fun e : Expense => e.total_amount) l).sublist
      (List.take_sublist 5 _)
  · intro k
    exact filter_sortByDesc Prod.snd gs k
  · intro k
    exact filter_sortByDesc (fun e : Expense => e.total_amount) l k

end WeddingLedger
